import Mathlib

/-!
Shallow embedding of the `golog` package (two Go source variants:
`src/log.go`, the fixed-layout variant, and `src/unnamed/part_000`, the
token-template variant).  Pure functions of the source are translated into
Lean functions; the dispatcher goroutine's select loop becomes a step
function on an explicit state.  Machine integers of the source (`uint8`
log levels, `int` line numbers, the `log` package flag words) are modelled
as `Nat`; Go `interface{}` values that the code only ever formats with
`fmt` verbs are modelled by the inductive `GoVal`; Go's `nil` interface is
`Option.none`.
-/

namespace Golog

/-- A Go value as far as this package's formatting is concerned: the code
passes subjects and format arguments around as `interface{}` and only ever
renders them through `fmt` verbs.  Strings and integers cover every use in
the repository and its examples. -/
inductive GoVal where
  | str : String → GoVal
  | int : Int → GoVal
deriving DecidableEq

/-- `fmt`'s default (`%v`) rendering of a non-nil `GoVal`. -/
def goV : GoVal → String
  | GoVal.str s => s
  | GoVal.int n => toString n

/-- `fmt.Sprintf("%v", x)` where `x : interface{}` may be the nil
interface: Go renders a nil interface value as the fixed string `<nil>`. -/
def sprintfV : Option GoVal → String
  | Option.none => "<nil>"
  | some v => goV v

/-- How Go's `fmt` describes a surplus argument inside the
`%!(EXTRA ...)` marker: `type=value`. -/
def goExtraArg : GoVal → String
  | GoVal.str s => "string=" ++ s
  | GoVal.int n => "int=" ++ toString n

/-- The core of `fmt.Sprintf` restricted to the verbs this package uses:
`%v`, `%d`, `%s` and the literal `%%`.  Surplus arguments append Go's
`%!(EXTRA type=value)` marker, missing arguments produce `%!verb(MISSING)`,
and a wrongly typed argument produces `%!verb(type=value)`, exactly as
`fmt` documents.  (Verbs outside this set do not occur in the repository
and are passed through unchanged.) -/
def sprintfAux : List Char → List GoVal → List Char
  | [], [] => []
  | [], a :: args =>
      ("%!(EXTRA " ++ String.intercalate ", " ((a :: args).map goExtraArg) ++ ")").data
  | '%' :: '%' :: rest, args => '%' :: sprintfAux rest args
  | '%' :: 'v' :: rest, a :: args => (goV a).data ++ sprintfAux rest args
  | '%' :: 'v' :: rest, [] => "%!v(MISSING)".data ++ sprintfAux rest []
  | '%' :: 'd' :: rest, GoVal.int n :: args => (toString n).data ++ sprintfAux rest args
  | '%' :: 'd' :: rest, GoVal.str s :: args =>
      ("%!d(string=" ++ s ++ ")").data ++ sprintfAux rest args
  | '%' :: 'd' :: rest, [] => "%!d(MISSING)".data ++ sprintfAux rest []
  | '%' :: 's' :: rest, GoVal.str s :: args => s.data ++ sprintfAux rest args
  | '%' :: 's' :: rest, GoVal.int n :: args =>
      ("%!s(int=" ++ toString n ++ ")").data ++ sprintfAux rest args
  | '%' :: 's' :: rest, [] => "%!s(MISSING)".data ++ sprintfAux rest []
  | c :: rest, args => c :: sprintfAux rest args

/-- `fmt.Sprintf(format, args...)` (for the verb fragment above). -/
def sprintf (format : String) (args : List GoVal) : String :=
  String.mk (sprintfAux format.data args)

/-- `strings.Contains`-style occurrence test on character lists:
`occursIn pat s` is true iff `pat` occurs as a contiguous substring of
`s` (the empty pattern occurs in every string, as in Go). -/
def occursIn (pat : List Char) : List Char → Bool
  | [] => pat.isEmpty
  | c :: rest => pat.isPrefixOf (c :: rest) || occursIn pat rest

/-- `strings.Contains(s, sub)`. -/
def containsStr (s sub : String) : Bool :=
  occursIn sub.data s.data

/-- `strings.Replace(s, "", repl, -1)`: with an empty pattern Go inserts
the replacement before every character and once at the end. -/
def interleave (repl : List Char) : List Char → List Char
  | [] => repl
  | c :: rest => repl ++ c :: interleave repl rest

/-- One fuel-indexed pass of `strings.Replace(s, pat, repl, -1)` for a
non-empty pattern: scan left to right, replace each non-overlapping
occurrence, continue after it.  The fuel only serves structural
termination; `fuel ≥ s.length` makes it behave exactly like Go (each step
consumes at least one character of `s`). -/
def replaceAux (pat repl : List Char) : Nat → List Char → List Char
  | _, [] => []
  | 0, s => s
  | fuel + 1, c :: rest =>
    if pat.isPrefixOf (c :: rest) then
      repl ++ replaceAux pat repl fuel (List.drop (pat.length - 1) rest)
    else
      c :: replaceAux pat repl fuel rest

/-- `strings.Replace(s, pat, repl, -1)` — replace all occurrences. -/
def goReplace (s pat repl : String) : String :=
  if pat.data.isEmpty then String.mk (interleave repl.data s.data)
  else String.mk (replaceAux pat.data repl.data s.data.length s.data)

/-! The token constants of `src/unnamed/part_000`. -/

def ExpandFunctionName : String := "FUNCTION"
def ExpandLineNumber : String := "LINE"
def ExpandTime : String := "TIME"
def ExpandDuration : String := "DURATION"
def ExpandSubject : String := "SUBJECT"
def ExpandMessageLevel : String := "LEVEL"
def ExpandMessage : String := "MESSAGE"

/-! The `LogLevel` constants (`uint8`, iota order) — identical in both
variants. -/

def All : Nat := 0
def Trace : Nat := 1
def Debug : Nat := 2
def Info : Nat := 3
def Warning : Nat := 4
def Error : Nat := 5
def None : Nat := 6

/-- `LogLevel.String()`: the switch of both variants, in source order;
the default branch panics (`No such log level`), modelled as
`Option.none`. -/
def levelString (ll : Nat) : Option String :=
  if ll = None then some "NONE"
  else if ll = Error then some "ERR "
  else if ll = Warning then some "WARN"
  else if ll = Info then some "INFO"
  else if ll = Debug then some "DBG "
  else if ll = Trace then some "TRC "
  else if ll = All then some "ALL "
  else Option.none

/-! Output handles and the standard library `log.Logger`. -/

/-- An opaque writable output handle (`io.Writer`), identified by a
number; `os.Stdout` is handle `1` (its file descriptor). -/
def stdoutHandle : Nat := 1

/-- `log.LstdFlags = log.Ldate | log.Ltime = 3`: a logger with these
flags prefixes every line with the current date and time. -/
def LstdFlags : Nat := 3

/-- The observable configuration of a `log.Logger` built by
`log.New(dest, pfx, flags)`: where lines go, the fixed prefix string, and
the flag word (non-zero flags add date/time decoration).  `log.Printf` on
such a logger writes `pfx ++ decoration(flags) ++ line ++ "\n"` to
`dest`. -/
structure GoLogger where
  dest : Nat
  pfx : String
  flags : Nat
deriving DecidableEq

/-- The zero value standing for a nil `*log.Logger` before
`initialize` runs. -/
def nilLogger : GoLogger := ⟨0, "", 0⟩

/-! The token-template variant (`src/unnamed/part_000`). -/

/-- `Instance` of the token-template variant.  (The unused
`UpdateOutput`/`UpdateOutputTrigger` fields — never read or written by any
code path — are omitted.) -/
structure Instance where
  Name : String
  Format : String
  output : Nat
  tags : List String
  log : GoLogger
  needsRuntime : Bool
deriving DecidableEq

/-- `(*Instance).checkForRuntime`: mark the instance as needing runtime
caller information when its format mentions `FUNCTION` or `LINE`. -/
def Instance.checkForRuntime (i : Instance) : Instance :=
  if containsStr i.Format ExpandFunctionName || containsStr i.Format ExpandLineNumber then
    { i with needsRuntime := true }
  else i

/-- `newInstance(name, format, output, tags...)` of the token-template
variant. -/
def newInstance (name format : String) (output : Nat) (tags : List String) : Instance :=
  Instance.checkForRuntime
    { Name := name, Format := format, output := output, tags := tags,
      log := nilLogger, needsRuntime := false }

/-- `(*Instance).initLog` of the token-template variant:
`i.log = log.New(i.output, "", 0)` — the instance's own output handle,
empty prefix, no flags. -/
def Instance.initLog (i : Instance) : Instance :=
  { i with log := ⟨i.output, "", 0⟩ }

/-- A message as constructed by the token-template variant.  `values` is
the `map[string]string` of context substitutions; Go map iteration order
is unspecified, so the map is carried as an association list in insertion
order and order-sensitive facts are stated against all permutations (see
`Renders`). -/
structure Message where
  Level : Nat
  Subject : Option GoVal
  Tags : List String
  values : List (String × String)
  Format : String
  Elements : List GoVal
deriving DecidableEq

/-- `(*Instance).expand(format, msg)`: for each `(token, value)` pair of
the message's context map, globally replace the token in the format
string (`strings.Replace(format, expand, value, -1)`), in the given
iteration order. -/
def Instance.expand (_i : Instance) (format : String) (msg : Message) : String :=
  msg.values.foldl (fun f p => goReplace f p.1 p.2) format

/-- `Instance.expand` without a receiver, applied to an explicit
iteration order of the context map — the building block for stating facts
about Go's unspecified map order. -/
def expandOrder (values : List (String × String)) (format : String) : String :=
  values.foldl (fun f p => goReplace f p.1 p.2) format

/-- The caller/runtime context captured eagerly by `Log`
(`runtime.Caller`, `time.Now`, the elapsed duration): inputs from the
environment, passed in explicitly. -/
structure CallCtx where
  fn : String
  line : Nat
  time : String
  dur : String
deriving DecidableEq

/-- `Log(level, subject, format, elements...)` of the token-template
variant: the `Message` it constructs and enqueues on `Sink`.  Note the
tags field is the literal `nil`, and the context map is seeded with the
`LINE`, `FUNCTION`, `TIME` and `DURATION` values. -/
def Log (level : Nat) (subject : Option GoVal) (format : String)
    (elements : List GoVal) (ctx : CallCtx) : Message :=
  { Level := level, Subject := subject, Tags := [],
    values := [(ExpandLineNumber, toString ctx.line),
               (ExpandFunctionName, ctx.fn),
               (ExpandTime, ctx.time),
               (ExpandDuration, ctx.dur)],
    Format := format, Elements := elements }

/-- `matchTags(msgTags, logTags)`: the nested loops returning true on the
first pair of equal tags — i.e. some message tag occurs among the
logger's tags. -/
def matchTags (msgTags logTags : List String) : Bool :=
  msgTags.any (fun t => logTags.any (fun tt => t == tt))

/-- The candidate-sink computation of the dispatcher's `msg := <-Sink`
branch: keep a logger when its tag list is empty, or when `matchTags`
succeeds; skip it otherwise.  Iteration order (and hence the order of the
result) follows the sink list. -/
def candidates (gologgers : List Instance) (msg : Message) : List Instance :=
  gologgers.filter (fun l => l.tags.isEmpty || matchTags msg.Tags l.tags)

/-- The dispatcher's private state: the current level threshold and the
registered logger instances (`level` and `gologgers` of the source). -/
structure DState where
  level : Nat
  gologgers : List Instance
deriving DecidableEq

/-- The context fill performed just before dispatch:
`msg.values[MESSAGE] = fmt.Sprintf(msg.Format, msg.Elements...)`,
`msg.values[SUBJECT] = fmt.Sprintf("%v", msg.Subject)`,
`msg.values[LEVEL] = msg.Level.String()` — three map insertions, given
the already-computed level string `lvs`. -/
def ctxFill (msg : Message) (lvs : String) : Message :=
  { msg with values := msg.values ++
      [(ExpandMessage, sprintf msg.Format msg.Elements),
       (ExpandSubject, sprintfV msg.Subject),
       (ExpandMessageLevel, lvs)] }

/-- What one delivery writes through a logger instance: the expanded
format is passed to `l.log.Printf(format)` — i.e. used again as a
`Printf` format string with no arguments. -/
def renderFor (msg : Message) (l : Instance) : String :=
  sprintf (l.expand l.Format msg) []

/-- The `msg := <-Sink` branch of the dispatcher loop: drop when
`msg.Level < level`; otherwise filter the candidate loggers, drop when
none match, fill the context map and write the expanded line through each
candidate, in sink-list order.  The result pairs each receiving instance
with the line it writes; `Option.none` models the panic of
`LogLevel.String()` on a level outside the enumeration. -/
def deliverStep (st : DState) (msg : Message) : Option (List (Instance × String)) :=
  if msg.Level < st.level then some []
  else if (candidates st.gologgers msg).isEmpty then some []
  else
    match levelString msg.Level with
    | Option.none => Option.none
    | some lvs =>
        some ((candidates st.gologgers msg).map
          (fun l => (l, renderFor (ctxFill msg lvs) l)))

/-- The deregistration compaction loop of the `name := <-DeRegisterLogger`
branch: walk the slice, keep (in order) every instance whose name differs
from the argument, truncate.  Embedded as the same left-to-right
accumulation. -/
def deregisterLoop (name : String) (ls : List Instance) : List Instance :=
  ls.foldl (fun acc l => if l.Name == name then acc else acc ++ [l]) []

/-- The four kinds of input the dispatcher's select loop consumes
(`RegisterLogger`, `DeRegisterLogger`, `NewLevel`, `Sink`). -/
inductive Command where
  | register (i : Instance)
  | deregister (name : String)
  | setLevel (lv : Nat)
  | deliver (msg : Message)
deriving DecidableEq

/-- One iteration of the dispatcher's select loop: the new state and the
list of (instance, line) writes it performs.  `Option.none` models a
panic. -/
def step (st : DState) (c : Command) : Option (DState × List (Instance × String)) :=
  match c with
  | Command.register i => some ({ st with gologgers := st.gologgers ++ [i] }, [])
  | Command.deregister name => some ({ st with gologgers := deregisterLoop name st.gologgers }, [])
  | Command.setLevel lv => some ({ st with level := lv }, [])
  | Command.deliver msg => (deliverStep st msg).map (fun outs => (st, outs))

/-! The fixed-layout variant (`src/log.go`). -/

/-- `Instance` of the fixed-layout variant (`src/log.go`): no format
string — the layout is hard-coded in the dispatcher. -/
structure FInstance where
  Name : String
  output : Nat
  tags : List String
  log : GoLogger
deriving DecidableEq

/-- `(*Instance).initLog` of the fixed-layout variant:
`i.log = log.New(os.Stdout, "", log.LstdFlags)` — note it targets
`os.Stdout` (not `i.output`) and turns on the date/time flags. -/
def FInstance.initLog (i : FInstance) : FInstance :=
  { i with log := ⟨stdoutHandle, "", LstdFlags⟩ }

/-- The `prfx := <-Prefix` branch of the fixed-layout dispatcher:
`l.log = log.New(l.output, prefix, log.LstdFlags)` for every registered
instance — this one rebuilds each logger onto the instance's own
output handle. -/
def FInstance.applyPfx (pfx : String) (i : FInstance) : FInstance :=
  { i with log := ⟨i.output, pfx, LstdFlags⟩ }

/-- The line the fixed-layout dispatcher hands to `Printf` for one
message: `"[%v] %v, %v"` with level, subject and the interpolated body
when the subject is non-nil, else `"[%v] %v"`; `%v` of the level is its
`String()` (which panics outside the enumeration, modelled as
`Option.none`), `%v` of subject and body prints them verbatim. -/
def fixedRender (lv : Nat) (subject : Option GoVal) (body : String) : Option String :=
  (levelString lv).map (fun ls =>
    match subject with
    | some s => "[" ++ ls ++ "] " ++ goV s ++ ", " ++ body
    | Option.none => "[" ++ ls ++ "] " ++ body)

/-! Go map iteration order is unspecified and varies between runs: a
`range` over `msg.values` may visit the pairs in any order.  `Renders`
is the resulting input/output relation of `Instance.expand`: some
iteration order of the context map produces the given output. -/

/-- `Renders values format out`: some Go map iteration order of the
context pairs `values` makes the token expansion of `format` produce
`out`. -/
def Renders (values : List (String × String)) (format out : String) : Prop :=
  ∃ ord, List.Perm ord values ∧ expandOrder ord format = out

/-! Concrete fixtures used by witnesses and counterexamples. -/

/-- A fully populated context map as produced by `Log` plus the
dispatcher's context fill, for a message whose body is the text
`LEVEL`. -/
def vals9 : List (String × String) :=
  [(ExpandLineNumber, "42"), (ExpandFunctionName, "f"), (ExpandTime, "t"),
   (ExpandDuration, "d"), (ExpandMessage, "LEVEL"), (ExpandSubject, "<nil>"),
   (ExpandMessageLevel, "INFO")]

/-- The same context map as `vals9` in another iteration order (`LEVEL`
visited before `MESSAGE`). -/
def vals9b : List (String × String) :=
  [(ExpandLineNumber, "42"), (ExpandFunctionName, "f"), (ExpandTime, "t"),
   (ExpandDuration, "d"), (ExpandMessageLevel, "INFO"), (ExpandMessage, "LEVEL"),
   (ExpandSubject, "<nil>")]

/-- A fully populated context map in insertion order, per the spec's
rendering scenario. -/
def ctxExample : List (String × String) :=
  [(ExpandLineNumber, "42"), (ExpandFunctionName, "Handle"), (ExpandTime, "t0"),
   (ExpandDuration, "1s"), (ExpandMessage, "boom"), (ExpandSubject, "auth"),
   (ExpandMessageLevel, "INFO")]

/-- A registered sink with no tag filter whose template is `MESSAGE`. -/
def sinkW : Instance := (newInstance "w" "MESSAGE" 5 []).initLog

/-- A registered sink named `b`. -/
def sinkB : Instance := (newInstance "b" "MESSAGE" 3 []).initLog

/-- A registered sink with tag filter `{db}`. -/
def sinkDb : Instance := (newInstance "db" "MESSAGE" 4 ["db"]).initLog

/-- A registered sink with no tag filter whose template is the single
token `SUBJECT`. -/
def subjSink : Instance := (newInstance "s" "SUBJECT" 7 []).initLog

/-- Dispatcher state: threshold `Info`, sinks `[sinkW]`. -/
def stW : DState := ⟨Info, [sinkW]⟩

/-- Dispatcher state: threshold `Info`, sinks `[subjSink]`. -/
def st8 : DState := ⟨Info, [subjSink]⟩

/-- A `Log`-built message at level `Warning` with no subject. -/
def msgW : Message := Log Warning Option.none "hello" [] ⟨"f", 1, "t", "d"⟩

/-- A `Log`-built message at level `Info` with absent (nil) subject. -/
def msg8 : Message := Log Info Option.none "m" [] ⟨"f", 10, "t", "d"⟩

/-- A `Log`-built message at level `Error` tagged with nothing (as all
`Log` messages are). -/
def msgDb : Message := Log Error Option.none "x" [] ⟨"f", 1, "t", "d"⟩

/-! Helper lemmas. -/

/-- The empty pattern occurs in every string (as for `strings.Contains`
in Go). -/
lemma occursIn_nil (s : List Char) : occursIn [] s = true := by
  cases s with
  | nil => rfl
  | cons c rest => simp [occursIn, List.isPrefixOf]

/-- A pattern that does not occur in `s` is not replaced: one
`strings.Replace` pass is the identity, for any fuel. -/
lemma replaceAux_id (pat repl : List Char) (fuel : Nat) (s : List Char)
    (h : occursIn pat s = false) : replaceAux pat repl fuel s = s := by
  induction fuel generalizing s with
  | zero => cases s <;> rfl
  | succ n ih =>
    cases s with
    | nil => rfl
    | cons c rest =>
      rw [occursIn, Bool.or_eq_false_iff] at h
      rw [replaceAux, if_neg (by simp [h.1]), ih rest h.2]

/-- `strings.Replace` with a pattern that does not occur is the
identity. -/
lemma goReplace_id (s pat repl : String) (h : occursIn pat.data s.data = false) :
    goReplace s pat repl = s := by
  unfold goReplace
  split
  next hemp =>
    exfalso
    rw [List.isEmpty_iff] at hemp
    rw [hemp, occursIn_nil] at h
    exact Bool.true_eq_false.mp h
  next =>
    rw [replaceAux_id pat.data repl.data s.data.length s.data h]

/-- Token expansion is the identity when none of the map's keys occurs
in the template, whatever the iteration order. -/
lemma expandOrder_id (values : List (String × String)) (format : String)
    (h : ∀ p ∈ values, occursIn p.1.data format.data = false) :
    expandOrder values format = format := by
  induction values with
  | nil => rfl
  | cons p rest ih =>
    unfold expandOrder at *
    rw [List.foldl_cons, goReplace_id format p.1 p.2 (h p (by simp))]
    exact ih (fun q hq => h q (by simp [hq]))

/-- `matchTags` succeeds exactly when the two tag lists share an
element. -/
lemma matchTags_iff (T F : List String) :
    matchTags T F = true ↔ ∃ t, t ∈ T ∧ t ∈ F := by
  simp [matchTags, List.any_eq_true]

/-- Membership in the candidate-sink list, unfolded. -/
lemma mem_candidates (gologgers : List Instance) (msg : Message) (l : Instance) :
    l ∈ candidates gologgers msg ↔
      l ∈ gologgers ∧ (l.tags.isEmpty || matchTags msg.Tags l.tags) = true := by
  simp [candidates, List.mem_filter]

/-- Every level of the closed enumeration has a display string. -/
lemma levelString_isSome (lv : Nat) (h : lv ≤ 6) : ∃ s, levelString lv = some s := by
  interval_cases lv <;> exact ⟨_, rfl⟩

/-- The deregistration compaction loop, with an arbitrary accumulator,
is append-of-filter. -/
lemma deregisterLoop_aux (name : String) (ls : List Instance) (acc : List Instance) :
    ls.foldl (fun acc l => if l.Name == name then acc else acc ++ [l]) acc
      = acc ++ ls.filter (fun l => !(l.Name == name)) := by
  induction ls generalizing acc with
  | nil => simp
  | cons l rest ih =>
    rw [List.foldl_cons, List.filter_cons]
    by_cases hl : l.Name = name
    · have hb : (l.Name == name) = true := beq_iff_eq.mpr hl
      rw [if_pos hb, hb, Bool.not_true, if_neg Bool.false_ne_true]
      exact ih acc
    · have hb : (l.Name == name) = false := by simp [hl]
      rw [if_neg (by simp [hb]), hb, Bool.not_false, if_pos rfl]
      rw [ih (acc ++ [l]), List.append_assoc, List.singleton_append]

/-- The deregistration loop keeps, in order, exactly the instances whose
name differs from the argument. -/
lemma deregisterLoop_eq_filter (name : String) (ls : List Instance) :
    deregisterLoop name ls = ls.filter (fun l => !(l.Name == name)) := by
  unfold deregisterLoop
  rw [deregisterLoop_aux]
  rfl

/-- Anything written by a delivery is written through a candidate
sink. -/
lemma deliverStep_mem (st : DState) (msg : Message) (outs : List (Instance × String))
    (h : deliverStep st msg = some outs) (l : Instance) (line : String)
    (hmem : (l, line) ∈ outs) : l ∈ candidates st.gologgers msg := by
  unfold deliverStep at h
  by_cases h1 : msg.Level < st.level
  · rw [if_pos h1, Option.some.injEq] at h
    rw [← h] at hmem
    exact absurd hmem (List.not_mem_nil _)
  · rw [if_neg h1] at h
    by_cases h2 : (candidates st.gologgers msg).isEmpty
    · rw [if_pos h2, Option.some.injEq] at h
      rw [← h] at hmem
      exact absurd hmem (List.not_mem_nil _)
    · rw [if_neg h2] at h
      cases hls : levelString msg.Level with
      | none =>
        rw [hls] at h
        exact absurd h (Option.noConfusion)
      | some lvs =>
        rw [hls, Option.some.injEq] at h
        rw [← h] at hmem
        obtain ⟨a, ha, hae⟩ := List.mem_map.mp hmem
        rw [Prod.mk.injEq] at hae
        rw [← hae.1]
        exact ha

/-! Claim theorems. -/

/-- C1: for every message and current threshold, the dispatcher's deliver
branch forwards the message to its matching sinks iff the message's level
is at least the threshold; a message strictly below the threshold is
dropped silently — no panic, no writes, and the dispatcher state is
unchanged.  (Levels are restricted to the closed enumeration `≤ 6` on the
delivery side, where `LogLevel.String()` runs.) -/
theorem c1_threshold_gate (st : DState) (msg : Message) :
    (msg.Level < st.level → step st (Command.deliver msg) = some (st, [])) ∧
    (∀ r, step st (Command.deliver msg) = some r → r.1 = st) ∧
    (st.level ≤ msg.Level → msg.Level ≤ 6 →
      ∀ l ∈ candidates st.gologgers msg,
        ∃ outs, step st (Command.deliver msg) = some (st, outs) ∧
          ∃ line, (l, line) ∈ outs) ∧
    (∀ outs, step st (Command.deliver msg) = some (st, outs) → outs ≠ [] →
      st.level ≤ msg.Level) := by
  refine ⟨?_, ?_, ?_, ?_⟩
  · intro h
    simp [step, deliverStep, h]
  · intro r hr
    simp only [step] at hr
    cases hd : deliverStep st msg with
    | none => rw [hd] at hr; exact absurd hr (by simp)
    | some outs =>
      rw [hd] at hr
      injection hr with h
      rw [← h]
  · intro hle hlv l hl
    have hnlt : ¬ msg.Level < st.level := by omega
    obtain ⟨lvs, hlvs⟩ := levelString_isSome msg.Level hlv
    have hne : (candidates st.gologgers msg).isEmpty = false := by
      cases hc : candidates st.gologgers msg with
      | nil => rw [hc] at hl; exact absurd hl (List.not_mem_nil _)
      | cons a as => rfl
    have hds : deliverStep st msg =
        some ((candidates st.gologgers msg).map
          (fun l => (l, renderFor (ctxFill msg lvs) l))) := by
      unfold deliverStep
      rw [if_neg hnlt, if_neg (by simp [hne]), hlvs]
    refine ⟨_, ?_, renderFor (ctxFill msg lvs) l,
      List.mem_map_of_mem (fun l => (l, renderFor (ctxFill msg lvs) l)) hl⟩
    simp only [step]
    rw [hds]
    rfl
  · intro outs hstep hne
    by_contra hgt
    have hlt : msg.Level < st.level := by omega
    have h1 : step st (Command.deliver msg) = some (st, []) := by
      simp [step, deliverStep, hlt]
    rw [h1, Option.some.injEq] at hstep
    exact hne (by rw [← (Prod.mk.injEq .. |>.mp hstep).2])

/-- C1 witness: with threshold `Info` and one unfiltered sink, a
`Warning`-level message is delivered to that sink. -/
theorem c1_witness :
    ∃ outs, step stW (Command.deliver msgW) = some (stW, outs) ∧
      ∃ line, (sinkW, line) ∈ outs :=
  (c1_threshold_gate stW msgW).2.2.1 (by decide) (by decide) sinkW (by decide)

/-- C2: for every registered sink, an empty tag filter accepts every
message; a non-empty tag filter accepts a message iff the filter and the
message's tag set intersect; in particular a non-empty filter never
accepts a message with no tags. -/
theorem c2_tag_routing (gologgers : List Instance) (msg : Message) (l : Instance)
    (hmem : l ∈ gologgers) :
    (l.tags = [] → l ∈ candidates gologgers msg) ∧
    (l.tags ≠ [] →
      (l ∈ candidates gologgers msg ↔ ∃ t, t ∈ l.tags ∧ t ∈ msg.Tags)) ∧
    (l.tags ≠ [] → msg.Tags = [] → l ∉ candidates gologgers msg) := by
  have hiff : ∀ h : l.tags ≠ [],
      (l ∈ candidates gologgers msg ↔ ∃ t, t ∈ l.tags ∧ t ∈ msg.Tags) := by
    intro h
    rw [mem_candidates]
    have hemp : l.tags.isEmpty = false := by
      cases hc : l.tags with
      | nil => exact absurd hc h
      | cons a as => rfl
    rw [hemp, Bool.false_or, matchTags_iff]
    constructor
    · rintro ⟨-, t, ht1, ht2⟩
      exact ⟨t, ht2, ht1⟩
    · rintro ⟨t, ht1, ht2⟩
      exact ⟨hmem, t, ht2, ht1⟩
  refine ⟨?_, hiff, ?_⟩
  · intro h
    rw [mem_candidates]
    exact ⟨hmem, by simp [h]⟩
  · intro h hT hc
    obtain ⟨t, -, ht⟩ := (hiff h).mp hc
    rw [hT] at ht
    exact absurd ht (List.not_mem_nil _)

/-- C2 witness: a sink with filter `{db}` receives a message tagged
`{db}`, via the intersection characterization. -/
theorem c2_witness :
    sinkDb ∈ candidates [sinkDb] { msgDb with Tags := ["db"] } :=
  ((c2_tag_routing [sinkDb] { msgDb with Tags := ["db"] } sinkDb (by decide)).2.1
    (by decide)).mpr ⟨"db", by decide, by decide⟩

/-- C3: token-template rendering is the identity on a template in which
no key of the context map occurs (unrecognized tokens are left verbatim,
no error), and it replaces all occurrences of a recognized token, not
just the first — `"LEVEL LEVEL"` renders as `"INFO INFO"` under the fully
populated example context. -/
theorem c3_token_replacement :
    (∀ (values : List (String × String)) (format : String),
        (∀ p ∈ values, occursIn p.1.data format.data = false) →
        expandOrder values format = format) ∧
    expandOrder ctxExample "LEVEL LEVEL" = "INFO INFO" ∧
    expandOrder ctxExample "FOO LEVEL BAR" = "FOO INFO BAR" :=
  ⟨expandOrder_id, by decide, by decide⟩

/-- C3 witness: the identity part applied to a concrete token-free
template under the example context. -/
theorem c3_witness : expandOrder ctxExample "no tokens here" = "no tokens here" :=
  c3_token_replacement.1 ctxExample "no tokens here" (by decide)

/-- C4: the fixed-layout renderer produces `"[<LEVEL>] <subject>, <body>"`
when the subject is present and `"[<LEVEL>] <body>"` when it is absent,
with the body obtained by `fmt` interpolation of the format string — in
particular `log(WARNING, "auth", "failed %d times", 3)` renders as
`"[WARN] auth, failed 3 times"`. -/
theorem c4_fixed_layout :
    (∀ (lv : Nat) (ls : String) (subject : GoVal) (body : String),
        levelString lv = some ls →
        fixedRender lv (some subject) body
            = some ("[" ++ ls ++ "] " ++ goV subject ++ ", " ++ body) ∧
          fixedRender lv Option.none body = some ("[" ++ ls ++ "] " ++ body)) ∧
    fixedRender Warning (some (GoVal.str "auth")) (sprintf "failed %d times" [GoVal.int 3])
      = some "[WARN] auth, failed 3 times" := by
  refine ⟨fun lv ls subject body h => ⟨?_, ?_⟩, by decide⟩ <;> simp [fixedRender, h]

/-- C4 witness: the general layout equations applied at level `Warning`
with a concrete subject and body. -/
theorem c4_witness :
    fixedRender Warning (some (GoVal.str "x")) "b" = some "[WARN] x, b" := by
  rw [(c4_fixed_layout.1 Warning "WARN" (GoVal.str "x") "b" (by decide)).1]
  decide

/-- C5 (code bug in the fixed-layout variant): `initialize` in
`src/log.go` builds the sink's logger on `os.Stdout` with `log.LstdFlags`
(date/time decoration), ignoring the sink's own registered output handle
— while the token-template variant's `initialize` and even the same
file's prefix-update branch build the logger on the instance's own
`output` handle.  Evaluated at a sink registered with output handle `2`:
the write destination is `os.Stdout` (handle 1) and the flag word is
non-zero. -/
theorem c5_write_target :
    (∀ i : FInstance, (FInstance.initLog i).log = ⟨stdoutHandle, "", LstdFlags⟩) ∧
    (∀ (i : FInstance) (pfx : String), (FInstance.applyPfx pfx i).log.dest = i.output) ∧
    (∀ i : Instance, (Instance.initLog i).log = ⟨i.output, "", 0⟩) ∧
    (FInstance.initLog ⟨"file", 2, [], nilLogger⟩).log.dest = stdoutHandle ∧
    stdoutHandle ≠ 2 ∧ LstdFlags ≠ 0 :=
  ⟨fun _ => rfl, fun _ _ => rfl, fun _ => rfl, rfl, by decide, by decide⟩

/-- C6: `LogLevel.String()` returns exactly the fixed 4-character-padded
labels on the seven defined severities, and hits the panicking default
branch (modelled as `Option.none`) exactly on the values outside the
enumeration. -/
theorem c6_level_display :
    levelString All = some "ALL " ∧ levelString Trace = some "TRC " ∧
    levelString Debug = some "DBG " ∧ levelString Info = some "INFO" ∧
    levelString Warning = some "WARN" ∧ levelString Error = some "ERR " ∧
    levelString None = some "NONE" ∧
    (∀ lv : Nat, levelString lv = Option.none ↔ 7 ≤ lv) := by
  refine ⟨rfl, rfl, rfl, rfl, rfl, rfl, rfl, fun lv => ?_⟩
  unfold levelString All Trace Debug Info Warning Error None
  split_ifs with h1 h2 h3 h4 h5 h6 h7 <;> simp <;> omega

/-- C7: the deregistration loop removes every instance whose name equals
the argument, keeps the remaining instances in their relative order (the
result is the order-preserving filter, a sublist of the input), and is a
no-op when no instance matches. -/
theorem c7_deregister (name : String) (ls : List Instance) :
    deregisterLoop name ls = ls.filter (fun l => !(l.Name == name)) ∧
    (∀ l ∈ deregisterLoop name ls, l.Name ≠ name) ∧
    List.Sublist (deregisterLoop name ls) ls ∧
    ((∀ l ∈ ls, l.Name ≠ name) → deregisterLoop name ls = ls) := by
  have hf := deregisterLoop_eq_filter name ls
  refine ⟨hf, ?_, ?_, ?_⟩
  · intro l hl
    rw [hf, List.mem_filter] at hl
    simpa using hl.2
  · rw [hf]
    exact List.filter_sublist _
  · intro h
    rw [hf]
    apply List.filter_eq_self.mpr
    intro l hl
    simpa using h l hl

/-- C7 witness: deregistering a name that matches no sink leaves the
sink list unchanged. -/
theorem c7_witness : deregisterLoop "a" [sinkB] = [sinkB] :=
  (c7_deregister "a" [sinkB]).2.2.2 (by decide)

/-- C8 counterexample: a delivered `Log` message with absent subject,
rendered through a sink whose template is the single token `SUBJECT`,
produces the line `"<nil>"` — `fmt.Sprintf("%v", nil)` yields the
placeholder `<nil>`, not the empty string the claim asserts. -/
theorem c8_subject_counterexample :
    msg8.Subject = Option.none ∧
    deliverStep st8 msg8 = some [(subjSink, "<nil>")] ∧
    ("<nil>" : String) ≠ "" :=
  ⟨rfl, by decide, by decide⟩

/-- C8 amended: for every delivered message whose optional subject is
absent, the renderer substitutes the fixed placeholder string `"<nil>"`
(Go's `%v` rendering of a nil interface) for the `SUBJECT` token — it
does not error (delivery never panics, for in-range levels). -/
theorem c8_subject_amended (st : DState) (msg : Message) (lvs : String)
    (hs : msg.Subject = Option.none) :
    sprintfV msg.Subject = "<nil>" ∧
    (ExpandSubject, "<nil>") ∈ (ctxFill msg lvs).values ∧
    (msg.Level ≤ 6 → deliverStep st msg ≠ Option.none) := by
  refine ⟨by rw [hs]; rfl, ?_, ?_⟩
  · simp [ctxFill, hs, sprintfV]
  · intro hlv hnone
    obtain ⟨s, hsome⟩ := levelString_isSome msg.Level hlv
    unfold deliverStep at hnone
    by_cases h1 : msg.Level < st.level
    · rw [if_pos h1] at hnone
      exact Option.noConfusion hnone
    · rw [if_neg h1] at hnone
      by_cases h2 : (candidates st.gologgers msg).isEmpty
      · rw [if_pos h2] at hnone
        exact Option.noConfusion hnone
      · rw [if_neg h2, hsome] at hnone
        exact Option.noConfusion hnone

/-- C8 witness: the amended statement at the concrete
no-subject message and the `SUBJECT`-template sink. -/
theorem c8_witness :
    sprintfV msg8.Subject = "<nil>" ∧
    (ExpandSubject, "<nil>") ∈ (ctxFill msg8 "INFO").values ∧
    (msg8.Level ≤ 6 → deliverStep st8 msg8 ≠ Option.none) :=
  c8_subject_amended st8 msg8 "INFO" rfl

/-- C9 counterexample: rendering is not a deterministic function of the
inputs — `expand` ranges over a Go map, whose iteration order is
unspecified, and for a fully populated context whose message body is the
text `LEVEL`, two legal iteration orders of the same map render the
template `MESSAGE` to two different strings. -/
theorem c9_render_counterexample :
    Renders vals9 "MESSAGE" "INFO" ∧ Renders vals9 "MESSAGE" "LEVEL" ∧
    ("INFO" : String) ≠ "LEVEL" :=
  ⟨⟨vals9, List.Perm.refl _, by decide⟩, ⟨vals9b, by decide, by decide⟩, by decide⟩

/-- C9 amended: rendering has no side effects and is deterministic once
the iteration order over the context map is fixed; across Go's
unspecified map iteration orders, equal inputs are guaranteed to give
equal outputs when no context key occurs in the template — in general a
context value containing a recognized token can make two runs differ. -/
theorem c9_render_amended (values : List (String × String)) (format : String) :
    (∀ ord out₁ out₂,
        expandOrder ord format = out₁ → expandOrder ord format = out₂ → out₁ = out₂) ∧
    ((∀ p ∈ values, occursIn p.1.data format.data = false) →
      ∀ out₁ out₂, Renders values format out₁ → Renders values format out₂ →
        out₁ = out₂) := by
  refine ⟨fun ord o1 o2 h1 h2 => h1 ▸ h2 ▸ rfl, fun hfmt o1 o2 h1 h2 => ?_⟩
  obtain ⟨ord1, hp1, he1⟩ := h1
  obtain ⟨ord2, hp2, he2⟩ := h2
  have e1 : expandOrder ord1 format = format :=
    expandOrder_id ord1 format (fun p hp => hfmt p (hp1.subset hp))
  have e2 : expandOrder ord2 format = format :=
    expandOrder_id ord2 format (fun p hp => hfmt p (hp2.subset hp))
  rw [← he1, ← he2, e1, e2]

/-- C9 witness: the amended determinism applied to a concrete token-free
template under the full example context. -/
theorem c9_witness : ("plain" : String) = "plain" :=
  (c9_render_amended vals9 "plain").2 (by decide) "plain" "plain"
    ⟨vals9, List.Perm.refl _, by decide⟩ ⟨vals9, List.Perm.refl _, by decide⟩

/-- C10: every message built by the public `Log` entry point carries the
literal `nil` tag set; consequently a sink registered with a non-empty
tag filter is never a candidate for such a message and never appears
among the writes of its delivery. -/
theorem c10_log_no_tags (lv : Nat) (subject : Option GoVal) (format : String)
    (elements : List GoVal) (ctx : CallCtx) (st : DState) (l : Instance)
    (h : l.tags ≠ []) :
    (Log lv subject format elements ctx).Tags = [] ∧
    l ∉ candidates st.gologgers (Log lv subject format elements ctx) ∧
    (∀ outs, deliverStep st (Log lv subject format elements ctx) = some outs →
      ∀ line, (l, line) ∉ outs) := by
  have hnot : l ∉ candidates st.gologgers (Log lv subject format elements ctx) := by
    intro hc
    rw [mem_candidates] at hc
    have h2 := hc.2
    have hemp : l.tags.isEmpty = false := by
      cases hcc : l.tags with
      | nil => exact absurd hcc h
      | cons a as => rfl
    rw [hemp, Bool.false_or] at h2
    obtain ⟨t, ht, -⟩ := (matchTags_iff _ _).mp h2
    have htags : (Log lv subject format elements ctx).Tags = [] := rfl
    rw [htags] at ht
    exact absurd ht (List.not_mem_nil _)
  refine ⟨rfl, hnot, ?_⟩
  intro outs houts line hmem
  exact hnot (deliverStep_mem st _ outs houts l line hmem)

/-- C10 witness: the `{db}`-filtered sink is not a candidate for a
concrete `Log`-built message. -/
theorem c10_witness :
    sinkDb ∉ candidates [sinkDb] (Log Error Option.none "x" [] ⟨"f", 1, "t", "d"⟩) :=
  (c10_log_no_tags Error Option.none "x" [] ⟨"f", 1, "t", "d"⟩ ⟨Info, [sinkDb]⟩
    sinkDb (by decide)).2.1

end Golog
